import Mathlib

/-!
Shallow embedding of the Horizon visual-canvas interaction/state engine
(src/app.js): rectangle geometry, the zone-aware group-selection algorithm,
the focus/selection model, viewport pan/zoom, delete/undo/redo ledgers,
clipboard copy/paste, and the persistence load/import paths.

Coordinates are modelled over the rationals; the JS code performs only
field arithmetic and order comparisons on them.
-/

namespace Horizon

/-- Axis-aligned rectangle, as produced by getBoundingClientRect /
the selection box: left, top, right, bottom. -/
structure Rect where
  left : ℚ
  top : ℚ
  right : ℚ
  bottom : ℚ
deriving DecidableEq

/-- app.js function rectIntersects:
true unless the rectangles are fully disjoint on either axis. -/
def rectIntersects (a b : Rect) : Bool :=
  !(decide (a.right < b.left) || decide (a.left > b.right) ||
    decide (a.bottom < b.top) || decide (a.top > b.bottom))

/-- app.js function rectContains: inner lies entirely within outer
on all four edges (inclusive). -/
def rectContains (outer inner : Rect) : Bool :=
  decide (inner.left ≥ outer.left) && decide (inner.right ≤ outer.right) &&
  decide (inner.top ≥ outer.top) && decide (inner.bottom ≤ outer.bottom)

/-- A canvas node: `{id, type, x, y, w, h, data}`; data is the
field-key → string-value mapping, modelled as an association list. -/
structure Node where
  id : String
  type : String
  x : ℚ
  y : ℚ
  w : ℚ
  h : ℚ
  data : List (String × String)
deriving DecidableEq

/-- Edges are referenced in state but never populated or interpreted
by any handler; opaque pass-through data. -/
structure Edge where
  raw : String
deriving DecidableEq

/-- A point of a freehand stroke. -/
structure Point where
  x : ℚ
  y : ℚ
deriving DecidableEq

/-- A freehand stroke: `{id, color, size, points}`. -/
structure Drawing where
  id : String
  color : String
  size : ℚ
  points : List Point
deriving DecidableEq

/-- A floating text annotation: `{id, x, y, text, size, color}`. -/
structure TextDrawing where
  id : String
  x : ℚ
  y : ℚ
  text : String
  size : ℚ
  color : String
deriving DecidableEq

/-- Clipboard payload: `{type:"single", node}` or `{type:"multi", nodes}`;
the empty clipboard is `Option.none` at the use site. -/
inductive Clipboard where
  | single (node : Node)
  | multi (nodes : List Node)
deriving DecidableEq

/-- Interaction mode: "normal" | "draw" | "text". -/
inductive Mode where
  | normal
  | draw
  | text
deriving DecidableEq

/-- The module-global mutable state of app.js, gathered into one record:
document state (nodes, edges, drawings, textDrawings), viewport transform
(zoom, panX, panY), selection set, focus, clipboard, and the node
delete undo/redo ledgers. -/
structure AppState where
  nodes : List Node
  edges : List Edge
  drawings : List Drawing
  textDrawings : List TextDrawing
  zoom : ℚ
  panX : ℚ
  panY : ℚ
  selectedIds : Finset String
  focusedId : Option String
  clipboard : Option Clipboard
  nodeUndo : List (List Node)
  nodeRedo : List (List Node)
deriving DecidableEq

/-- The state at script start: empty document, zoom 1, no pan,
nothing selected or focused, empty clipboard and ledgers. -/
def initialState : AppState :=
  { nodes := [], edges := [], drawings := [], textDrawings := []
    zoom := 1, panX := 0, panY := 0
    selectedIds := ∅, focusedId := none, clipboard := none
    nodeUndo := [], nodeRedo := [] }

/-- app.js screenToWorld: world point of a viewport-relative screen
point, `(p - pan) / zoom` componentwise. -/
def screenToWorld (s : AppState) (px py : ℚ) : ℚ × ℚ :=
  ((px - s.panX) / s.zoom, (py - s.panY) / s.zoom)

/-- The wheel handler on the viewport (shift held): zoom step of fixed
magnitude 0.1 per tick, clamped to [0.1, 2]; pan is recomputed from the
pre-zoom world coordinate under the cursor so that the cursor stays
anchored.  mx, my are the cursor position relative to the viewport. -/
def wheelZoomOp (s : AppState) (mx my deltaY : ℚ) : AppState :=
  let delta : ℚ := if 0 < deltaY then -(1/10) else 1/10
  let newZoom : ℚ := min 2 (max (1/10) (s.zoom + delta))
  let wx := (mx - s.panX) / s.zoom
  let wy := (my - s.panY) / s.zoom
  { s with zoom := newZoom, panX := mx - wx * newZoom, panY := my - wy * newZoom }

/-- A rendered node as seen by the selection-box mouseup handler:
its id, its on-screen bounding rectangle, and whether its element
carries the zone class. -/
structure SelNode where
  id : String
  rect : Rect
  isZone : Bool
deriving DecidableEq

/-- The "active zone" test of the selection-box mouseup handler:
partial escape (overlap but neither rectangle contains the other),
or the zone fully inside the selection. -/
def zoneActive (sel : Rect) (z : Rect) : Bool :=
  let inter := rectIntersects z sel
  let selectionInsideZone := rectContains z sel
  let zoneInsideSelection := rectContains sel z
  (inter && !selectionInsideZone && !zoneInsideSelection) || zoneInsideSelection

/-- The selection set rebuilt by the selection-box mouseup handler:
every active zone; for every active zone, every non-zone node fully
contained in it; and every non-zone node intersecting the selection.
Zones are never selected through the plain intersection pass. -/
def groupSelect (sel : Rect) (nodes : List SelNode) : List String :=
  let zones := nodes.filter (fun n => n.isZone)
  let others := nodes.filter (fun n => !n.isZone)
  let activeZones := zones.filter (fun z => zoneActive sel z.rect)
  activeZones.map (fun z => z.id)
    ++ activeZones.flatMap (fun z =>
        (others.filter (fun n => rectContains z.rect n.rect)).map (fun n => n.id))
    ++ (others.filter (fun n => rectIntersects n.rect sel)).map (fun n => n.id)

/-- The zone rectangle Z = (0,0,100,100) of the worked example in the spec. -/
def zoneZ : SelNode :=
  { id := "Z", rect := { left := 0, top := 0, right := 100, bottom := 100 }, isZone := true }

/-- The selection rectangle S = (90,90,150,150) of the worked example in the spec. -/
def selS : Rect := { left := 90, top := 90, right := 150, bottom := 150 }

/-- The non-zone node N = (95,95,105,105) of the worked example in the spec. -/
def nodeN : SelNode :=
  { id := "N", rect := { left := 95, top := 95, right := 105, bottom := 105 }, isZone := false }

/-- The full content of claim C1, as a predicate over the selection
rectangle and the rendered nodes: (a) the "active" test is exactly
partial-escape-or-enclosed; (b) the selected ids are exactly the active
zones, the non-zone nodes inside some active zone, and the non-zone nodes
intersecting the selection; (c) a zone that the selection lies fully
inside, without escape, is never selected; (d) the worked example
Z, S, N yields exactly the selection {Z, N}. -/
def C1Spec (S : Rect) (nodes : List SelNode) : Prop :=
  (∀ z : Rect, zoneActive S z = true ↔
      ((rectIntersects z S = true ∧ ¬ rectContains z S = true ∧ ¬ rectContains S z = true)
        ∨ rectContains S z = true)) ∧
  (∀ x : String, x ∈ groupSelect S nodes ↔
      ((∃ z ∈ nodes, z.isZone = true ∧ zoneActive S z.rect = true ∧ x = z.id)
        ∨ (∃ n ∈ nodes, n.isZone = false ∧ x = n.id ∧
            (rectIntersects n.rect S = true
              ∨ ∃ z ∈ nodes, z.isZone = true ∧ zoneActive S z.rect = true
                  ∧ rectContains z.rect n.rect = true)))) ∧
  (∀ z ∈ nodes, z.isZone = true → rectContains z.rect S = true →
      rectContains S z.rect = false → z.id ∉ groupSelect S nodes) ∧
  groupSelect selS [zoneZ, nodeN] = ["Z", "N"]

/-- The Escape branch of the keydown handler: unfocus and clear the
selection, in one handler body. -/
def escapeOp (s : AppState) : AppState :=
  { s with focusedId := none, selectedIds := ∅ }

/-- The selection-box mouseup handler as a state operation: the selection
set is rebuilt from scratch by the group-selection algorithm over the
rendered node rectangles, and focus is explicitly cleared. -/
def selectionBoxUp (s : AppState) (sel : Rect) (rendered : List SelNode) : AppState :=
  { s with selectedIds := (groupSelect sel rendered).toFinset, focusedId := none }

/-- The ids targeted by the Delete key: the whole selection if non-empty,
otherwise the focused node, otherwise nothing. -/
def idsToDelete (s : AppState) : Finset String :=
  if s.selectedIds.Nonempty then s.selectedIds
  else
    match s.focusedId with
    | some f => {f}
    | none => ∅

/-- The Delete branch of the keydown handler: with a non-empty target and
a confirmed dialog, push the array of deleted node snapshots as one undo
entry, empty the redo stack, remove the nodes, clear selection and focus. -/
def deleteOp (s : AppState) (confirmOk : Bool) : AppState :=
  if idsToDelete s = ∅ then s
  else if confirmOk = false then s
  else
    { s with
      nodes := s.nodes.filter (fun n => !decide (n.id ∈ idsToDelete s)),
      nodeUndo := (s.nodes.filter (fun n => decide (n.id ∈ idsToDelete s))) :: s.nodeUndo,
      nodeRedo := [],
      selectedIds := ∅,
      focusedId := none }

/-- The Ctrl+Z branch (normal mode): pop the node-undo stack, re-insert
the whole snapshot batch, push it onto the redo stack. -/
def undoOp (s : AppState) : AppState :=
  match s.nodeUndo with
  | [] => s
  | last :: rest =>
    { s with nodes := s.nodes ++ last, nodeUndo := rest, nodeRedo := last :: s.nodeRedo }

/-- The Ctrl+Y branch (normal mode): pop the node-redo stack and remove
exactly the ids of that batch from the node list; selection and focus are
not touched by this branch. -/
def redoOp (s : AppState) : AppState :=
  match s.nodeRedo with
  | [] => s
  | last :: rest =>
    { s with
      nodes := s.nodes.filter (fun n => !(last.map (fun m => m.id)).contains n.id),
      nodeRedo := rest,
      nodeUndo := last :: s.nodeUndo }

/-- The Ctrl+Alt+C branch: snapshot the selection (if non-empty) or the
focused node into the clipboard as a structurally independent deep copy. -/
def copyOp (s : AppState) : AppState :=
  if s.selectedIds.Nonempty then
    { s with clipboard := some (Clipboard.multi
        (s.nodes.filter (fun n => decide (n.id ∈ s.selectedIds)))) }
  else
    match s.focusedId with
    | some f =>
      match s.nodes.find? (fun n => n.id == f) with
      | some n => { s with clipboard := some (Clipboard.single n) }
      | none => s
    | none => s

/-- The clone built for one clipboard node on paste: a deep copy with a
freshly generated id and position offset by (+40, +40); i is the index of
the crypto.randomUUID call, gen its result. -/
def cloneAt (gen : ℕ → String) (i : ℕ) (n : Node) : Node :=
  { n with id := gen i, x := n.x + 40, y := n.y + 40 }

/-- The Ctrl+Alt+V branch: with a non-empty clipboard, clear the current
selection, deep-copy each clipboard node with a freshly generated id,
offset it by (+40, +40), append all clones, focus the first clone and
select them all.  An empty clipboard leaves the state untouched. -/
def pasteOp (s : AppState) (gen : ℕ → String) : AppState :=
  match s.clipboard with
  | none => s
  | some (Clipboard.single n) =>
    let clone := cloneAt gen 0 n
    { s with nodes := s.nodes ++ [clone],
             selectedIds := {clone.id},
             focusedId := some clone.id }
  | some (Clipboard.multi ns) =>
    let clones := ns.mapIdx (cloneAt gen)
    { s with nodes := s.nodes ++ clones,
             selectedIds := (clones.map (fun c => c.id)).toFinset,
             focusedId :=
               match clones.head? with
               | some c => some c.id
               | none => s.focusedId }

/-- The node-element mousedown handler together with the drag-move it
installs: group-move override of focus, the normal-mode / button / shift /
field-target guards, the hard-lock short-circuit when focus is held by a
different node without Ctrl, Ctrl-click selection toggling, replacing the
selection when an unselected node is pressed, and finally moving every
selected node by the screen delta divided by the zoom. -/
def nodeMouseDown (s : AppState) (mode : Mode) (nodeId : String)
    (button : Nat) (shiftDown ctrlDown targetIsField : Bool)
    (screenDx screenDy : ℚ) : AppState :=
  let s1 := if 1 < s.selectedIds.card ∧ nodeId ∈ s.selectedIds
            then { s with focusedId := none } else s
  if mode ≠ Mode.normal ∨ button ≠ 0 then s1
  else if shiftDown = true then s1
  else if targetIsField = true then s1
  else if s1.focusedId ≠ none ∧ s1.focusedId ≠ some nodeId ∧ ctrlDown = false then s1
  else if ctrlDown = true then
    (if nodeId ∈ s1.selectedIds
     then { s1 with selectedIds := s1.selectedIds.erase nodeId }
     else { s1 with selectedIds := insert nodeId s1.selectedIds })
  else
    let s2 := if nodeId ∉ s1.selectedIds
      then { s1 with selectedIds := {nodeId},
                     focusedId := if s1.focusedId = none then some nodeId else s1.focusedId }
      else s1
    let dx := screenDx / s2.zoom
    let dy := screenDy / s2.zoom
    { s2 with nodes := s2.nodes.map (fun n =>
        if decide (n.id ∈ s2.selectedIds) then { n with x := n.x + dx, y := n.y + dy } else n) }

/-- The oninput handler of a rendered field writes the value under the
field key of the data object of that node (set or add the key). -/
def setField (data : List (String × String)) (k v : String) : List (String × String) :=
  if data.any (fun p => p.1 == k)
  then data.map (fun p => if p.1 == k then (k, v) else p)
  else data ++ [(k, v)]

/-- Field edit on the node with the given id. -/
def fieldEditOp (s : AppState) (nodeId k v : String) : AppState :=
  { s with nodes := s.nodes.map (fun n =>
      if n.id == nodeId then { n with data := setField n.data k v } else n) }

/-- The clear-all toolbar button: with a confirmed dialog, empty every
collection and clear selection and focus. -/
def clearAllOp (s : AppState) (confirmOk : Bool) : AppState :=
  if confirmOk = false then s
  else { s with nodes := [], edges := [], drawings := [], textDrawings := [],
                selectedIds := ∅, focusedId := none }

/-- The meta block of a parsed persisted blob; a field is `some` exactly
when present with a numeric value (the typeof number guard). -/
structure ParsedMeta where
  zoom : Option ℚ
  panX : Option ℚ
  panY : Option ℚ
deriving DecidableEq

/-- A successfully parsed blob / import document; a collection field is
`none` when absent (the `|| []` fallback applies). -/
structure ParsedDoc where
  nodes : Option (List Node)
  edges : Option (List Edge)
  drawings : Option (List Drawing)
  textDrawings : Option (List TextDrawing)
  meta : Option ParsedMeta
deriving DecidableEq

/-- The raw persisted blob as the load path sees it: absent key, a blob
on which JSON.parse (or the subsequent property access) throws, or a
parsed document. -/
inductive RawBlob where
  | missing
  | malformed
  | parsed (d : ParsedDoc)
deriving DecidableEq

/-- app.js loadFromStorage: a missing key returns early; a parse failure
is swallowed by the catch (console warning only); a parsed blob replaces
the collections (absent ones default to empty) and overwrites each
viewport value only when the blob carries a numeric value for it —
without any clamping. -/
def loadFromStorage (s : AppState) (raw : RawBlob) : AppState :=
  match raw with
  | RawBlob.missing => s
  | RawBlob.malformed => s
  | RawBlob.parsed d =>
    { s with
      nodes := d.nodes.getD [],
      edges := d.edges.getD [],
      drawings := d.drawings.getD [],
      textDrawings := d.textDrawings.getD [],
      zoom := match d.meta with | some m => m.zoom.getD s.zoom | none => s.zoom,
      panX := match d.meta with | some m => m.panX.getD s.panX | none => s.panX,
      panY := match d.meta with | some m => m.panY.getD s.panY | none => s.panY }

/-- app.js importState, from the point where the file content has been
read: a parse failure alerts ("Invalid state file", the Bool component)
and leaves the state untouched; a parsed document replaces the four
collections (absent ones default to empty), clears focus and selection,
and leaves the viewport unchanged. -/
def importState (s : AppState) (r : Except Unit ParsedDoc) : AppState × Bool :=
  match r with
  | Except.error _ => (s, true)
  | Except.ok d =>
    ({ s with nodes := d.nodes.getD [], edges := d.edges.getD [],
              drawings := d.drawings.getD [], textDrawings := d.textDrawings.getD [],
              focusedId := none, selectedIds := ∅ }, false)

/-! Concrete ids, nodes, states and parsed documents used by the
witnesses and counterexamples. -/

/-- Concrete node id. -/
def idA : String := "A"

/-- Concrete node id. -/
def idB : String := "B"

/-- Concrete node id. -/
def idC : String := "C"

/-- A concrete note node. -/
def nodeA : Node :=
  { id := idA, type := "note", x := 0, y := 0, w := 200, h := 140, data := [("text", "")] }

/-- A concrete note node. -/
def nodeB : Node :=
  { id := idB, type := "note", x := 50, y := 60, w := 200, h := 140, data := [("text", "")] }

/-- A concrete note node. -/
def nodeC : Node :=
  { id := idC, type := "note", x := 300, y := 80, w := 200, h := 140, data := [("text", "")] }

/-- A state in which node A holds focus and is the only selected node,
with node B present but unselected. -/
def lockState : AppState :=
  { initialState with nodes := [nodeA, nodeB], focusedId := some idA, selectedIds := {idA} }

/-- A state with a three-node selection, for the delete round trip. -/
def delState : AppState :=
  { initialState with nodes := [nodeA, nodeB, nodeC], selectedIds := {idA, idB, idC} }

/-- A state whose clipboard holds a multi snapshot of node A, with node B
live in the document. -/
def cbState : AppState :=
  { initialState with nodes := [nodeB], clipboard := some (Clipboard.multi [nodeA]) }

/-- A state in which node A holds focus. -/
def focusedState : AppState :=
  { initialState with nodes := [nodeA], focusedId := some idA }

/-- A state reachable by delete → undo → double-click focus on the
restored node: the redo stack holds the batch of node A while node A is
focused and selected. -/
def danglingState : AppState :=
  { initialState with
    nodes := [nodeA]
    selectedIds := {idA}
    focusedId := some idA
    nodeRedo := [[nodeA]] }

/-- A parsed meta block carrying the out-of-range numeric zoom 5. -/
def overMeta : ParsedMeta := { zoom := some 5, panX := none, panY := none }

/-- A parsed persisted blob carrying zoom 5 and no collections. -/
def overZoomBlob : ParsedDoc :=
  { nodes := none, edges := none, drawings := none, textDrawings := none,
    meta := some overMeta }

/-- A parsed blob with every field absent. -/
def emptyBlob : ParsedDoc :=
  { nodes := none, edges := none, drawings := none, textDrawings := none, meta := none }

/-- A concrete injective id generator standing in for crypto.randomUUID:
the i-th generated id is the string of i+1 copies of the letter P. -/
def genId : ℕ → String := fun i => String.mk (List.replicate (i + 1) 'P')

/-- The content of claim C4 as amended: the wheel step always clamps the
new zoom into [0.1, 2.0] whatever the prior zoom; loadFromStorage copies
a numeric persisted zoom verbatim with no clamp, so it preserves the
invariant only when the persisted value is itself in range. -/
def C4AmendSpec (s : AppState) (mx my deltaY : ℚ) (d : ParsedDoc) (z : ℚ) : Prop :=
  (1/10 ≤ (wheelZoomOp s mx my deltaY).zoom ∧ (wheelZoomOp s mx my deltaY).zoom ≤ 2) ∧
  (loadFromStorage s (RawBlob.parsed d)).zoom = z ∧
  (1/10 ≤ z ∧ z ≤ 2 →
    1/10 ≤ (loadFromStorage s (RawBlob.parsed d)).zoom ∧
      (loadFromStorage s (RawBlob.parsed d)).zoom ≤ 2)

/-- The content of claim C5 over a state s (with a non-empty delete
target): delete pushes the batch of deleted snapshots as one undo entry
of full size and empties the redo stack; undo re-appends exactly that
batch, restoring the original node multiset; redo then removes exactly
the batch ids again, leaving every other node untouched. -/
def C5Spec (s : AppState) : Prop :=
  (deleteOp s true).nodeUndo
      = (s.nodes.filter (fun n => decide (n.id ∈ idsToDelete s))) :: s.nodeUndo ∧
  (deleteOp s true).nodeRedo = [] ∧
  (s.nodes.filter (fun n => decide (n.id ∈ idsToDelete s))).length = (idsToDelete s).card ∧
  (undoOp (deleteOp s true)).nodes
      = (deleteOp s true).nodes ++ s.nodes.filter (fun n => decide (n.id ∈ idsToDelete s)) ∧
  List.Perm (undoOp (deleteOp s true)).nodes s.nodes ∧
  (undoOp (deleteOp s true)).nodeRedo
      = [s.nodes.filter (fun n => decide (n.id ∈ idsToDelete s))] ∧
  (redoOp (undoOp (deleteOp s true))).nodes = (deleteOp s true).nodes

/-- The content of claim C6: empty clipboard → paste is a no-op; single
snapshot → one clone appended with fresh id, offset (+40,+40), identical
data, selection exactly that clone, focus on it; multi snapshot → all
clones appended in order with fresh pairwise-distinct ids, selection
exactly the clones, focus on the first clone. -/
def C6Spec (s : AppState) (gen : ℕ → String) : Prop :=
  (s.clipboard = none → pasteOp s gen = s) ∧
  (∀ n : Node, s.clipboard = some (Clipboard.single n) →
      (pasteOp s gen).nodes = s.nodes ++ [cloneAt gen 0 n] ∧
      (cloneAt gen 0 n).x = n.x + 40 ∧ (cloneAt gen 0 n).y = n.y + 40 ∧
      (cloneAt gen 0 n).data = n.data ∧
      gen 0 ∉ s.nodes.map (fun m => m.id) ∧
      (pasteOp s gen).selectedIds = {gen 0} ∧
      (pasteOp s gen).focusedId = some (gen 0)) ∧
  (∀ ns : List Node, s.clipboard = some (Clipboard.multi ns) → ns ≠ [] →
      (pasteOp s gen).nodes = s.nodes ++ ns.mapIdx (cloneAt gen) ∧
      ((ns.mapIdx (cloneAt gen)).map (fun c => c.id)) = (List.range ns.length).map gen ∧
      ((List.range ns.length).map gen).Nodup ∧
      (∀ i ∈ (List.range ns.length).map gen, i ∉ s.nodes.map (fun m => m.id)) ∧
      (pasteOp s gen).selectedIds = ((ns.mapIdx (cloneAt gen)).map (fun c => c.id)).toFinset ∧
      (pasteOp s gen).focusedId = some (gen 0))

/-- The content of claim C8 as amended: delete, import and clear-all
clear the selection and unset focus when they remove nodes, but the redo
branch removes the batch nodes while leaving both the selection set and
the focus untouched. -/
def C8AmendSpec (s : AppState) (d : ParsedDoc) : Prop :=
  ((deleteOp s true).focusedId = none ∧ (deleteOp s true).selectedIds = ∅ ∧
    ∀ n ∈ (deleteOp s true).nodes, n.id ∉ idsToDelete s) ∧
  ((importState s (Except.ok d)).1.focusedId = none ∧
    (importState s (Except.ok d)).1.selectedIds = ∅) ∧
  ((clearAllOp s true).focusedId = none ∧ (clearAllOp s true).selectedIds = ∅) ∧
  ((redoOp s).focusedId = s.focusedId ∧ (redoOp s).selectedIds = s.selectedIds)

/-- The content of claim C9: a missing or malformed persisted blob is
swallowed with no state change; in a parsed blob each absent collection
defaults to empty and an absent meta leaves the viewport untouched; an
an import whose content fails to parse surfaces the alert and leaves the
state completely untouched. -/
def C9Spec (s : AppState) (d : ParsedDoc) : Prop :=
  loadFromStorage s RawBlob.missing = s ∧
  loadFromStorage s RawBlob.malformed = s ∧
  (d.nodes = none → (loadFromStorage s (RawBlob.parsed d)).nodes = []) ∧
  (d.edges = none → (loadFromStorage s (RawBlob.parsed d)).edges = []) ∧
  (d.drawings = none → (loadFromStorage s (RawBlob.parsed d)).drawings = []) ∧
  (d.textDrawings = none → (loadFromStorage s (RawBlob.parsed d)).textDrawings = []) ∧
  (d.meta = none →
      (loadFromStorage s (RawBlob.parsed d)).zoom = s.zoom ∧
      (loadFromStorage s (RawBlob.parsed d)).panX = s.panX ∧
      (loadFromStorage s (RawBlob.parsed d)).panY = s.panY) ∧
  importState s (Except.error ()) = (s, true)

/-- The content of claim C10 over a state whose clipboard holds a multi
snapshot ns: any sequence of pastes leaves the clipboard exactly as
captured; two successive pastes both offset from the snapshot by exactly
(+40,+40) (no accumulation); editing a field of a pasted node changes
neither the clipboard nor any original node. -/
def C10Spec (s : AppState) (ns : List Node) (g1 g2 : ℕ → String)
    (pid k v : String) : Prop :=
  (∀ gl : List (ℕ → String), (gl.foldl pasteOp s).clipboard = s.clipboard) ∧
  (pasteOp (pasteOp s g1) g2).nodes
      = s.nodes ++ ns.mapIdx (cloneAt g1) ++ ns.mapIdx (cloneAt g2) ∧
  (fieldEditOp (pasteOp (pasteOp s g1) g2) pid k v).clipboard = s.clipboard ∧
  (∀ n ∈ s.nodes, n ∈ (fieldEditOp (pasteOp (pasteOp s g1) g2) pid k v).nodes)

/-- A concrete field key. -/
def keyText : String := "text"

/-- A concrete field value. -/
def valEdited : String := "edited"

/-! Theorems. -/

/-- Membership characterisation of the group-selection result: an id is
selected iff it is the id of an active zone, or the id of a non-zone node
that either intersects the selection or lies fully inside some active zone. -/
theorem mem_groupSelect_iff (S : Rect) (nodes : List SelNode) (x : String) :
    x ∈ groupSelect S nodes ↔
      ((∃ z ∈ nodes, z.isZone = true ∧ zoneActive S z.rect = true ∧ x = z.id)
        ∨ (∃ n ∈ nodes, n.isZone = false ∧ x = n.id ∧
            (rectIntersects n.rect S = true
              ∨ ∃ z ∈ nodes, z.isZone = true ∧ zoneActive S z.rect = true
                  ∧ rectContains z.rect n.rect = true))) := by
  simp only [groupSelect, List.mem_append, List.mem_map, List.mem_flatMap,
    List.mem_filter, Bool.not_eq_true']
  constructor
  · rintro ((⟨z, ⟨⟨hz, h1⟩, h2⟩, rfl⟩
        | ⟨z, ⟨⟨hz, h1⟩, h2⟩, n, ⟨⟨hn, h3⟩, h4⟩, rfl⟩)
        | ⟨n, ⟨⟨hn, h3⟩, h4⟩, rfl⟩)
    · exact Or.inl ⟨z, hz, h1, h2, rfl⟩
    · exact Or.inr ⟨n, hn, h3, rfl, Or.inr ⟨z, hz, h1, h2, h4⟩⟩
    · exact Or.inr ⟨n, hn, h3, rfl, Or.inl h4⟩
  · rintro (⟨z, hz, h1, h2, rfl⟩ | ⟨n, hn, h3, rfl, h4 | ⟨z, hz, h1, h2, h5⟩⟩)
    · exact Or.inl (Or.inl ⟨z, ⟨⟨hz, h1⟩, h2⟩, rfl⟩)
    · exact Or.inr ⟨n, ⟨⟨hn, h3⟩, h4⟩, rfl⟩
    · exact Or.inl (Or.inr ⟨z, ⟨⟨hz, h1⟩, h2⟩, n, ⟨⟨hn, h3⟩, h5⟩, rfl⟩)

/-- C1: Group selection on drag-release.  For every selection rectangle S
and every set of zone / non-zone rendered rectangles with distinct ids:
a zone is active iff (it intersects S and neither rectangle contains the
other) or S fully contains the zone; the selection set is exactly the
active zones, the non-zone nodes fully contained in some active zone, and
the non-zone nodes intersecting S; a zone that S lies fully inside (with
no escape) is never selected; and on the worked example Z = (0,0,100,100),
S = (90,90,150,150), N = (95,95,105,105) the selected set is {Z, N}. -/
theorem C1_group_selection (S : Rect) (nodes : List SelNode)
    (hnodup : (nodes.map (fun n => n.id)).Nodup) :
    C1Spec S nodes := by
  refine ⟨?_, fun x => mem_groupSelect_iff S nodes x, ?_, by decide⟩
  · intro z
    cases h1 : rectIntersects z S <;> cases h2 : rectContains z S <;>
      cases h3 : rectContains S z <;> simp [zoneActive, h1, h2, h3]
  · intro z hz hzone hcont hnoesc hmem
    rw [mem_groupSelect_iff] at hmem
    rcases hmem with ⟨z', hz', _, hact, heq⟩ | ⟨n, hn, hno, heq, _⟩
    · have : z = z' := List.inj_on_of_nodup_map hnodup hz hz' heq
      subst this
      simp [zoneActive, hcont, hnoesc] at hact
    · have : z = n := List.inj_on_of_nodup_map hnodup hz hn heq
      subst this
      rw [hzone] at hno
      simp at hno

/-- Witness for C1: the two nodes of the worked example have distinct ids and
the full C1 property holds on them. -/
theorem C1_group_selection_witness :
    (([zoneZ, nodeN].map (fun n => n.id)).Nodup) ∧ C1Spec selS [zoneZ, nodeN] :=
  ⟨by decide, C1_group_selection selS [zoneZ, nodeN] (by decide)⟩

/-- C3: Cursor-anchored zoom.  For every wheel zoom step at screen point
(mx, my) and every prior viewport state with zoom in [0.1, 2.0], the world
point under the cursor is unchanged: screenToWorld evaluated with the new
zoom and recomputed pan equals screenToWorld evaluated before the step. -/
theorem C3_cursor_anchored_zoom (s : AppState) (mx my deltaY : ℚ)
    (hlo : 1/10 ≤ s.zoom) (hhi : s.zoom ≤ 2) :
    screenToWorld (wheelZoomOp s mx my deltaY) mx my = screenToWorld s mx my := by
  have h1 : (0:ℚ) < 1/10 := by norm_num
  have hnz : (0:ℚ) < min 2 (max (1/10) (s.zoom + (if 0 < deltaY then -(1/10) else 1/10))) :=
    lt_min (by norm_num) (lt_of_lt_of_le h1 (le_max_left _ _))
  unfold screenToWorld wheelZoomOp
  simp only [Prod.mk.injEq]
  constructor <;>
  · rw [sub_sub_cancel, mul_div_cancel_right₀ _ (ne_of_gt hnz)]

/-- Witness for C3 at a concrete state: zoom 1 is within [0.1, 2.0] and
the anchoring equation holds at cursor (7, 9) for a zoom-in tick. -/
theorem C3_cursor_anchored_zoom_witness :
    (1/10 ≤ initialState.zoom ∧ initialState.zoom ≤ 2) ∧
    screenToWorld (wheelZoomOp initialState 7 9 (-1)) 7 9 =
      screenToWorld initialState 7 9 :=
  ⟨⟨by norm_num [initialState], by norm_num [initialState]⟩,
    C3_cursor_anchored_zoom initialState 7 9 (-1) (by norm_num [initialState])
      (by norm_num [initialState])⟩

/-- C2: Focus hard-lock.  Whenever some node A holds focus, a drag-move
attempted on any other node B that is not part of the current selection,
with Ctrl not pressed, leaves the whole state — in particular the position of B — unchanged for every drag delta: the handler short-circuits
before mutating anything. -/
theorem C2_focus_hard_lock (s : AppState) (mode : Mode) (A B : String)
    (button : Nat) (shiftDown targetIsField : Bool) (screenDx screenDy : ℚ)
    (hB : B ∈ s.nodes.map (fun n => n.id))
    (hfoc : s.focusedId = some A) (hne : A ≠ B) (hBsel : B ∉ s.selectedIds) :
    nodeMouseDown s mode B button shiftDown false targetIsField screenDx screenDy = s := by
  have h0 : ¬(1 < s.selectedIds.card ∧ B ∈ s.selectedIds) := fun h => hBsel h.2
  have h4 : s.focusedId ≠ none ∧ s.focusedId ≠ some B ∧ True :=
    ⟨by simp [hfoc], by simp only [hfoc, ne_eq, Option.some.injEq]; exact hne, trivial⟩
  simp only [nodeMouseDown, if_neg h0]
  split_ifs with h1 h2 h3 <;> rfl

/-- Witness for C2: in the concrete state where node A is focused and B
is present but unselected, a mousedown-drag on B with Ctrl up changes
nothing. -/
theorem C2_focus_hard_lock_witness :
    (idB ∈ lockState.nodes.map (fun n => n.id) ∧ lockState.focusedId = some idA ∧
      idA ≠ idB ∧ idB ∉ lockState.selectedIds) ∧
    nodeMouseDown lockState Mode.normal idB 0 false false false 30 40 = lockState :=
  ⟨⟨by decide, rfl, by decide, by decide⟩,
    C2_focus_hard_lock lockState Mode.normal idA idB 0 false false 30 40
      (by decide) rfl (by decide) (by decide)⟩

/-- C4 counterexample: the initial zoom is inside [0.1, 2.0], yet loading
a persisted blob whose meta carries the numeric zoom 5 sets the viewport
zoom to 5, outside [0.1, 2.0] — the load path applies no clamp. -/
theorem C4_zoom_clamp_counterexample :
    (1/10 ≤ initialState.zoom ∧ initialState.zoom ≤ 2) ∧
    (loadFromStorage initialState (RawBlob.parsed overZoomBlob)).zoom = 5 ∧
    ¬((loadFromStorage initialState (RawBlob.parsed overZoomBlob)).zoom ≤ 2) := by
  refine ⟨⟨by norm_num [initialState], by norm_num [initialState]⟩, rfl, ?_⟩
  norm_num [loadFromStorage, overZoomBlob, overMeta]

/-- C4 as amended: the wheel zoom step always produces a zoom inside
[0.1, 2.0] whatever the prior state, but loadFromStorage copies a numeric
persisted zoom verbatim without clamping, so loading preserves the
invariant only when the persisted value is itself inside [0.1, 2.0]. -/
theorem C4_zoom_clamp_amended (s : AppState) (mx my deltaY : ℚ)
    (d : ParsedDoc) (m : ParsedMeta) (z : ℚ)
    (hm : d.meta = some m) (hz : m.zoom = some z) :
    C4AmendSpec s mx my deltaY d z := by
  have hw : (wheelZoomOp s mx my deltaY).zoom
      = min 2 (max (1/10) (s.zoom + (if 0 < deltaY then -(1/10) else 1/10))) := rfl
  have hl : (loadFromStorage s (RawBlob.parsed d)).zoom = z := by
    simp [loadFromStorage, hm, hz]
  refine ⟨⟨?_, ?_⟩, hl, fun hr => ⟨?_, ?_⟩⟩
  · rw [hw]
    exact le_min (by norm_num) (le_trans (by norm_num) (le_max_left _ _))
  · rw [hw]
    exact min_le_left _ _
  · rw [hl]; exact hr.1
  · rw [hl]; exact hr.2

/-- Witness for the amended statement of C4: the blob carrying zoom 5 satisfies
the hypotheses, and loading it indeed yields zoom 5 verbatim. -/
theorem C4_zoom_clamp_amended_witness :
    (overZoomBlob.meta = some overMeta ∧ overMeta.zoom = some 5) ∧
    C4AmendSpec initialState 0 0 1 overZoomBlob 5 :=
  ⟨⟨rfl, rfl⟩, C4_zoom_clamp_amended initialState 0 0 1 overZoomBlob overMeta 5 rfl rfl⟩

/-- Mapping ids commutes with filtering by a predicate on ids. -/
theorem filter_by_id_map (l : List Node) (p : String → Bool) :
    (l.filter (fun n => p n.id)).map (fun n => n.id)
      = (l.map (fun n => n.id)).filter p := by
  induction l with
  | nil => rfl
  | cons a t ih =>
    simp only [List.map_cons, List.filter_cons]
    cases h : p a.id <;> simp [h, ih]

/-- C5: Delete-undo-redo round trip.  Deleting the targeted ids (the
selection, else the focused node) pushes the batch of all deleted node
snapshots as one undo entry — one snapshot per targeted id — and empties
the redo stack; undo re-inserts exactly those snapshots (restoring the
original node multiset, ids, positions and field data identical); redo
then removes exactly the ids of that batch, leaving every other node
untouched. -/
theorem C5_delete_undo_redo (s : AppState)
    (hne : idsToDelete s ≠ ∅)
    (hsub : ∀ i ∈ idsToDelete s, i ∈ s.nodes.map (fun n => n.id))
    (hnodup : (s.nodes.map (fun n => n.id)).Nodup) :
    C5Spec s := by
  have hdel : deleteOp s true =
      { s with
        nodes := s.nodes.filter (fun n => !decide (n.id ∈ idsToDelete s)),
        nodeUndo := (s.nodes.filter (fun n => decide (n.id ∈ idsToDelete s))) :: s.nodeUndo,
        nodeRedo := [],
        selectedIds := ∅,
        focusedId := none } := by
    simp [deleteOp, hne]
  have hundo : undoOp (deleteOp s true)
      = { s with
          nodes := s.nodes.filter (fun n => !decide (n.id ∈ idsToDelete s))
                    ++ s.nodes.filter (fun n => decide (n.id ∈ idsToDelete s)),
          nodeUndo := s.nodeUndo,
          nodeRedo := [s.nodes.filter (fun n => decide (n.id ∈ idsToDelete s))],
          selectedIds := ∅,
          focusedId := none } := by
    rw [hdel]; rfl
  have hlen : (s.nodes.filter (fun n => decide (n.id ∈ idsToDelete s))).length
      = (idsToDelete s).card := by
    have hmap : (s.nodes.filter (fun n => decide (n.id ∈ idsToDelete s))).map (fun n => n.id)
        = (s.nodes.map (fun n => n.id)).filter (fun i => decide (i ∈ idsToDelete s)) :=
      filter_by_id_map s.nodes (fun i => decide (i ∈ idsToDelete s))
    have hnd : ((s.nodes.map (fun n => n.id)).filter
        (fun i => decide (i ∈ idsToDelete s))).Nodup := hnodup.filter _
    have htf : ((s.nodes.map (fun n => n.id)).filter
          (fun i => decide (i ∈ idsToDelete s))).toFinset = idsToDelete s := by
      ext i
      simp only [List.mem_toFinset, List.mem_filter, decide_eq_true_eq]
      exact ⟨fun h => h.2, fun h => ⟨hsub i h, h⟩⟩
    calc (s.nodes.filter (fun n => decide (n.id ∈ idsToDelete s))).length
        = ((s.nodes.filter (fun n => decide (n.id ∈ idsToDelete s))).map
            (fun n => n.id)).length := (List.length_map _ _).symm
      _ = ((s.nodes.map (fun n => n.id)).filter
            (fun i => decide (i ∈ idsToDelete s))).length := by rw [hmap]
      _ = ((s.nodes.map (fun n => n.id)).filter
            (fun i => decide (i ∈ idsToDelete s))).toFinset.card :=
          (List.toFinset_card_of_nodup hnd).symm
      _ = (idsToDelete s).card := by rw [htf]
  have hperm : List.Perm (s.nodes.filter (fun n => !decide (n.id ∈ idsToDelete s))
      ++ s.nodes.filter (fun n => decide (n.id ∈ idsToDelete s))) s.nodes :=
    List.Perm.trans List.perm_append_comm
      (List.filter_append_perm (fun n => decide (n.id ∈ idsToDelete s)) s.nodes)
  have hkept : (s.nodes.filter (fun n => !decide (n.id ∈ idsToDelete s))).filter
      (fun n => !((s.nodes.filter (fun m => decide (m.id ∈ idsToDelete s))).map
        (fun m => m.id)).contains n.id)
      = s.nodes.filter (fun n => !decide (n.id ∈ idsToDelete s)) := by
    rw [List.filter_eq_self]
    intro n hn
    rw [List.mem_filter] at hn
    have hnid : n.id ∉ idsToDelete s := by
      have := hn.2
      simp only [Bool.not_eq_true', decide_eq_false_iff_not] at this
      exact this
    simp only [Bool.not_eq_true']
    cases hc : ((s.nodes.filter (fun m => decide (m.id ∈ idsToDelete s))).map
        (fun m => m.id)).contains n.id
    · rfl
    · exfalso
      have hmem : n.id ∈ (s.nodes.filter
          (fun m => decide (m.id ∈ idsToDelete s))).map (fun m => m.id) :=
        List.elem_iff.mp hc
      rw [List.mem_map] at hmem
      obtain ⟨m, hm, hmid⟩ := hmem
      rw [List.mem_filter] at hm
      have : m.id ∈ idsToDelete s := of_decide_eq_true hm.2
      rw [hmid] at this
      exact hnid this
  have hgone : (s.nodes.filter (fun n => decide (n.id ∈ idsToDelete s))).filter
      (fun n => !((s.nodes.filter (fun m => decide (m.id ∈ idsToDelete s))).map
        (fun m => m.id)).contains n.id) = [] := by
    rw [List.filter_eq_nil_iff]
    intro n hn
    have hmem : n.id ∈ (s.nodes.filter
        (fun m => decide (m.id ∈ idsToDelete s))).map (fun m => m.id) :=
      List.mem_map_of_mem _ hn
    have hc : ((s.nodes.filter (fun m => decide (m.id ∈ idsToDelete s))).map
        (fun m => m.id)).contains n.id = true := List.elem_iff.mpr hmem
    rw [hc]
    simp
  have hredo : (redoOp (undoOp (deleteOp s true))).nodes = (deleteOp s true).nodes := by
    rw [hundo, hdel]
    show ((s.nodes.filter (fun n => !decide (n.id ∈ idsToDelete s))
        ++ s.nodes.filter (fun n => decide (n.id ∈ idsToDelete s))).filter
          (fun n => !((s.nodes.filter (fun m => decide (m.id ∈ idsToDelete s))).map
            (fun m => m.id)).contains n.id))
      = s.nodes.filter (fun n => !decide (n.id ∈ idsToDelete s))
    rw [List.filter_append, hkept, hgone, List.append_nil]
  refine ⟨by rw [hdel], by rw [hdel], hlen, ?_, ?_, by rw [hundo], hredo⟩
  · rw [hundo, hdel]
  · rw [hundo]
    exact hperm

/-- Witness for C5: the three-node selection state satisfies the
hypotheses (non-empty target, targets exist, distinct ids) and the full
delete-undo-redo round trip property holds on it. -/
theorem C5_delete_undo_redo_witness :
    (idsToDelete delState ≠ ∅ ∧
      (∀ i ∈ idsToDelete delState, i ∈ delState.nodes.map (fun n => n.id)) ∧
      (delState.nodes.map (fun n => n.id)).Nodup) ∧
    C5Spec delState :=
  ⟨⟨by decide, by decide, by decide⟩,
    C5_delete_undo_redo delState (by decide) (by decide) (by decide)⟩

/-- The ids of the pasted clones are exactly gen 0, …, gen (len-1),
in order. -/
theorem mapIdx_cloneAt_ids (gen : ℕ → String) (ns : List Node) :
    (ns.mapIdx (cloneAt gen)).map (fun c => c.id) = (List.range ns.length).map gen := by
  induction ns generalizing gen with
  | nil => rfl
  | cons a t ih =>
    simp only [List.mapIdx_cons, List.map_cons, List.length_cons, List.range_succ_eq_map,
      List.map_map]
    exact congrArg (fun l => gen 0 :: l) (ih (fun j => gen (j + 1)))

/-- The stand-in generator is injective. -/
theorem genId_inj : ∀ i j : ℕ, genId i = genId j → i = j := by
  intro i j h
  have h2 : List.replicate (i + 1) 'P' = List.replicate (j + 1) 'P' :=
    congrArg String.data h
  have h3 : i + 1 = j + 1 := by
    have := congrArg List.length h2
    simpa using this
  omega

/-- The stand-in generator never collides with the ids live in cbState. -/
theorem genId_fresh_cbState : ∀ i, genId i ∉ cbState.nodes.map (fun m => m.id) := by
  intro i h
  have h1 : genId i = idB := by
    simpa [cbState, nodeB, initialState] using h
  have h2 : 'P' :: List.replicate i 'P' = ['B'] := by
    rw [← List.replicate_succ]
    exact congrArg String.data h1
  injection h2 with h3 h4
  exact absurd h3 (by decide)

/-- C6: Paste semantics.  With an empty clipboard paste changes nothing;
with a single snapshot it appends one deep copy with a fresh id, offset
exactly (+40, +40), identical field data, makes it the whole selection
and focuses it; with a non-empty multi snapshot it appends one deep copy
per snapshot node, each with a fresh pairwise-distinct id and offset
(+40, +40), selects exactly the clones and focuses the first clone. -/
theorem C6_paste (s : AppState) (gen : ℕ → String)
    (hfresh : ∀ i, gen i ∉ s.nodes.map (fun m => m.id))
    (hinj : ∀ i j, gen i = gen j → i = j) :
    C6Spec s gen := by
  refine ⟨?_, ?_, ?_⟩
  · intro hcb
    simp [pasteOp, hcb]
  · intro n hcb
    refine ⟨?_, rfl, rfl, rfl, hfresh 0, ?_, ?_⟩
    · simp [pasteOp, hcb]
    · simp [pasteOp, hcb, cloneAt]
    · simp [pasteOp, hcb, cloneAt]
  · intro ns hcb hnil
    obtain ⟨a, t, rfl⟩ : ∃ a t, ns = a :: t := by
      cases ns with
      | nil => exact absurd rfl hnil
      | cons a t => exact ⟨a, t, rfl⟩
    refine ⟨?_, mapIdx_cloneAt_ids gen (a :: t), ?_, ?_, ?_, ?_⟩
    · simp [pasteOp, hcb]
    · exact List.Nodup.map_on (fun i _ j _ h => hinj i j h) (List.nodup_range _)
    · intro i hi
      rw [List.mem_map] at hi
      obtain ⟨j, _, rfl⟩ := hi
      exact hfresh j
    · simp [pasteOp, hcb]
    · simp [pasteOp, hcb, List.mapIdx_cons, cloneAt]

/-- Witness for C6: on the concrete clipboard state (multi snapshot of
node A, node B live), with the injective fresh generator, the full paste
property holds, and the pasted list is concretely node B followed by the
offset clone of node A. -/
theorem C6_paste_witness :
    C6Spec cbState genId ∧
    (pasteOp cbState genId).nodes = [nodeB, cloneAt genId 0 nodeA] :=
  ⟨C6_paste cbState genId genId_fresh_cbState genId_inj, rfl⟩

/-- C7 counterexample: with node A focused, completing a selection box —
an operation other than pressing ESC — removes focus.  The claim that ESC
is the sole unfocus action is therefore false on the code. -/
theorem C7_sole_unfocus_counterexample :
    focusedState.focusedId = some idA ∧
    (selectionBoxUp focusedState selS []).focusedId = none :=
  ⟨rfl, rfl⟩

/-- C7 as amended: pressing ESC clears the focus and clears the selection
set together in one handler step; but ESC is not the sole unfocus action —
selection-box completion also clears focus unconditionally (as do delete,
group-move start, import and clear-all). -/
theorem C7_escape_amended (s : AppState) (sel : Rect) (rendered : List SelNode) :
    escapeOp s = { s with focusedId := none, selectedIds := ∅ } ∧
    (escapeOp s).focusedId = none ∧ (escapeOp s).selectedIds = ∅ ∧
    (selectionBoxUp s sel rendered).focusedId = none :=
  ⟨rfl, rfl, rfl, rfl⟩

/-- C8 counterexample: in a reachable state (delete → undo → refocus),
redo of the delete batch removes the focused node from the node list but
leaves both focus and selection pointing at it — focus then references
the id of no existing node, contradicting the claim that every
node-removing operation also clears selection and focus. -/
theorem C8_focus_validity_counterexample :
    (redoOp danglingState).nodes = [] ∧
    (redoOp danglingState).focusedId = some idA ∧
    idA ∈ (redoOp danglingState).selectedIds ∧
    (∀ n ∈ (redoOp danglingState).nodes, n.id ≠ idA) := by
  refine ⟨by decide, rfl, by decide, by decide⟩

/-- C8 as amended: delete (with a non-empty confirmed target), import and
clear-all do clear the selection and unset focus when they remove nodes,
but the redo branch removes the nodes of the batch while leaving both the
selection set and the focus untouched, so a dangling focus is reachable. -/
theorem C8_focus_validity_amended (s : AppState) (d : ParsedDoc)
    (hne : idsToDelete s ≠ ∅) :
    C8AmendSpec s d := by
  refine ⟨⟨?_, ?_, ?_⟩, ⟨rfl, rfl⟩, ⟨rfl, rfl⟩, ⟨?_, ?_⟩⟩
  · simp [deleteOp, hne]
  · simp [deleteOp, hne]
  · intro n hn
    simp only [deleteOp, if_neg hne, Bool.true_eq_false, if_false, List.mem_filter,
      Bool.not_eq_true', decide_eq_false_iff_not] at hn
    exact hn.2
  · rcases h : s.nodeRedo with _ | ⟨l, r⟩ <;> simp [redoOp, h]
  · rcases h : s.nodeRedo with _ | ⟨l, r⟩ <;> simp [redoOp, h]

/-- Witness for the amended statement of C8 on the concrete dangling state. -/
theorem C8_focus_validity_amended_witness :
    (idsToDelete danglingState ≠ ∅) ∧ C8AmendSpec danglingState emptyBlob :=
  ⟨by decide, C8_focus_validity_amended danglingState emptyBlob (by decide)⟩

/-- C9: Parse-failure handling.  A missing or malformed persisted blob is
swallowed with no state change at all; in a parsed blob each absent
collection defaults to empty and an absent meta leaves every viewport
value unchanged; an import whose content fails to parse surfaces the
"Invalid state file" alert and leaves the in-memory state completely
untouched — no field partially assigned. -/
theorem C9_parse_failure (s : AppState) (d : ParsedDoc) : C9Spec s d := by
  refine ⟨rfl, rfl, ?_, ?_, ?_, ?_, ?_, rfl⟩
  · intro h; simp [loadFromStorage, h]
  · intro h; simp [loadFromStorage, h]
  · intro h; simp [loadFromStorage, h]
  · intro h; simp [loadFromStorage, h]
  · intro h
    refine ⟨?_, ?_, ?_⟩ <;> simp [loadFromStorage, h]

/-- Witness for C9: the all-absent blob indeed loads as empty collections,
and a failing import returns the untouched state together with the alert. -/
theorem C9_parse_failure_witness :
    emptyBlob.nodes = none ∧
    (loadFromStorage initialState (RawBlob.parsed emptyBlob)).nodes = [] ∧
    importState initialState (Except.error ()) = (initialState, true) :=
  ⟨rfl, (C9_parse_failure initialState emptyBlob).2.2.1 rfl,
    (C9_parse_failure initialState emptyBlob).2.2.2.2.2.2.2⟩

/-- Paste never rewrites the clipboard slot. -/
theorem pasteOp_clipboard (s : AppState) (gen : ℕ → String) :
    (pasteOp s gen).clipboard = s.clipboard := by
  rcases hc : s.clipboard with _ | cb
  · simp [pasteOp, hc]
  · cases cb <;> simp [pasteOp, hc]

/-- Shape of the node list after pasting a multi snapshot. -/
theorem pasteOp_multi_nodes (t : AppState) (gen : ℕ → String) (ns : List Node)
    (ht : t.clipboard = some (Clipboard.multi ns)) :
    (pasteOp t gen).nodes = t.nodes ++ ns.mapIdx (cloneAt gen) := by
  simp [pasteOp, ht]

/-- C10: Paste never mutates the clipboard.  Any sequence of pastes
leaves the clipboard holding exactly the data captured at copy time; two
successive pastes of the same clipboard both produce clones at the
original position + (40, 40) — the offset does not accumulate; and
editing a field of a pasted node changes neither the clipboard nor any
original node. -/
theorem C10_paste_clipboard_frame (s : AppState) (ns : List Node)
    (g1 g2 : ℕ → String) (pid k v : String)
    (hcb : s.clipboard = some (Clipboard.multi ns))
    (hpid : pid ∈ (ns.mapIdx (cloneAt g2)).map (fun c => c.id))
    (hfresh : pid ∉ s.nodes.map (fun m => m.id)) :
    C10Spec s ns g1 g2 pid k v := by
  have hc1 : (pasteOp s g1).clipboard = some (Clipboard.multi ns) :=
    (pasteOp_clipboard s g1).trans hcb
  have hn1 : (pasteOp s g1).nodes = s.nodes ++ ns.mapIdx (cloneAt g1) :=
    pasteOp_multi_nodes s g1 ns hcb
  have hn2 : (pasteOp (pasteOp s g1) g2).nodes
      = s.nodes ++ ns.mapIdx (cloneAt g1) ++ ns.mapIdx (cloneAt g2) := by
    rw [pasteOp_multi_nodes _ g2 ns hc1, hn1]
  refine ⟨?_, hn2, ?_, ?_⟩
  · intro gl
    clear hc1 hn1 hn2 hcb hpid hfresh
    induction gl generalizing s with
    | nil => rfl
    | cons g t ih =>
      simp only [List.foldl_cons]
      rw [ih (pasteOp s g), pasteOp_clipboard]
  · rw [show (fieldEditOp (pasteOp (pasteOp s g1) g2) pid k v).clipboard
        = (pasteOp (pasteOp s g1) g2).clipboard from rfl,
      pasteOp_clipboard, pasteOp_clipboard]
  · intro n hn
    have hne' : n.id ≠ pid := by
      intro he
      apply hfresh
      rw [← he]
      exact List.mem_map_of_mem _ hn
    have hmem2 : n ∈ (pasteOp (pasteOp s g1) g2).nodes := by
      rw [hn2]
      exact List.mem_append_left _ (List.mem_append_left _ hn)
    have hb : (n.id == pid) = false := beq_eq_false_iff_ne.mpr hne'
    have hfn : (fun m =>
        if m.id == pid then { m with data := setField m.data k v } else m) n = n := by
      simp only [hb, Bool.false_eq_true, if_false]
    have hmap := List.mem_map_of_mem (fun m =>
      if m.id == pid then { m with data := setField m.data k v } else m) hmem2
    rw [hfn] at hmap
    simpa [fieldEditOp] using hmap

/-- Witness for C10 on the concrete clipboard state: the clipboard holds
the multi snapshot of node A, the edited id is the id of the pasted clone and
is fresh with respect to the live node B, and the full frame property
holds. -/
theorem C10_paste_clipboard_frame_witness :
    (cbState.clipboard = some (Clipboard.multi [nodeA]) ∧
      genId 0 ∈ (([nodeA]).mapIdx (cloneAt genId)).map (fun c => c.id) ∧
      genId 0 ∉ cbState.nodes.map (fun m => m.id)) ∧
    C10Spec cbState [nodeA] genId genId (genId 0) keyText valEdited :=
  ⟨⟨rfl, by decide, by decide⟩,
    C10_paste_clipboard_frame cbState [nodeA] genId genId (genId 0) keyText valEdited
      rfl (by decide) (by decide)⟩

end Horizon
